import Mathlib

/-!
Verification of the branch and tag reconciliation logic of the
github-repo-sync action. Pure functions are embedded directly from the
JavaScript source; stateful loops become explicit recursion returning the
list of refs that were attempted together with the first error, mirroring
the exception propagation of the original code. External git capabilities
(push execution, regex matching, common-ancestor computation) are passed
as function parameters, as the specification treats them as abstract
executor capabilities.
-/

namespace RepoSync

/-- Kinds of destination remotes: standard git hosting or Gerrit review queue. -/
inductive RemoteKind
  | standard
  | gerrit
deriving DecidableEq, Repr

/-- Result of the divergence analysis between a source ref and a destination ref.
Commits are identified by content-addressed ids, embedded as Nat. -/
inductive DivergenceResult
  | missing
  | identical
  | fastForward
  | sourceAheadCleanDestination
  | diverged (mergeBase : Option Nat)
deriving DecidableEq, Repr

/-- Structured error kinds of the action (spec section 7; messages declared in
src/src/constants.js ERROR_MESSAGES). -/
inductive ErrorKind
  | authenticationMissing
  | branchNotFound (requested : String) (available : List String)
  | destinationModified (branch : String)
  | remoteUnreachable
  | invalidBranchMapping
  | tagPushFailed (tag : String)
deriving DecidableEq, Repr

/-- Whether the caller has opted into force pushes. -/
inductive ForcePolicy
  | allow
  | deny
deriving DecidableEq, Repr

/-- The planned push action, the single output of the decision core per branch. -/
inductive PushAction
  | createNew
  | noOp
  | fastForward
  | forcePush
  | gerritSubmit (ref : String)
  | abort (reason : ErrorKind)
deriving DecidableEq, Repr

/-! ## Pure string helpers (embedding JS regex and string tests) -/

/-- JS regex test for a single character occurring anywhere in the string. -/
def containsChar (s : String) (c : Char) : Bool :=
  s.data.contains c

/-- A pattern list occurring somewhere (contiguously) inside another list. -/
def listHasInfix (pat : List Char) : List Char → Bool
  | [] => pat.isEmpty
  | c :: rest => pat.isPrefixOf (c :: rest) || listHasInfix pat rest

/-- JS regex test for a literal substring occurring anywhere in the string. -/
def containsSub (s pat : String) : Bool :=
  listHasInfix pat.data s.data

/-- JS regex test anchored at the end of the string. -/
def endsWithSfx (s sfx : String) : Bool :=
  sfx.data.isSuffixOf s.data

/-! ## normalizeRepositoryUrl (src/unnamed/part_000 lines 307-323) -/

/-- The test `/:|@|\.git\/?$/.test(upstreamRepo)` of the source: the string
contains a colon, contains an at sign, or ends in ".git" optionally followed
by a slash. -/
def isGitUri (s : String) : Bool :=
  containsChar s ':' || containsChar s '@' || endsWithSfx s ".git" || endsWithSfx s ".git/"

/-- Embedded from normalizeRepositoryUrl: a string passing the git-URI test is
returned unchanged, anything else is treated as a GitHub slug and wrapped. -/
def normalizeRepositoryUrl (upstreamRepo : String) : String :=
  if isGitUri upstreamRepo then upstreamRepo
  else "https://github.com/" ++ upstreamRepo ++ ".git"

/-! ## parseBranchMapping (src/unnamed/part_000 lines 330-340)

JS `branchMapping.split(":")` followed by destructuring `[source, destination]`
and the falsiness test `!source || !destination`: a missing component
(undefined) and an empty component are both falsy, so both map to "" here. -/

/-- JS String.split on a single separator character: "" splits to [""],
"a:" splits to ["a", ""], ":" splits to ["", ""]. -/
def jsSplitAux (sep : Char) : List Char → List Char → List String
  | [], acc => [String.mk acc.reverse]
  | x :: xs, acc =>
    if x == sep then String.mk acc.reverse :: jsSplitAux sep xs []
    else jsSplitAux sep xs (x :: acc)

/-- JS `s.split(sep)` for a single-character separator. -/
def jsSplit (s : String) (sep : Char) : List String :=
  jsSplitAux sep s.data []

/-- Embedded from parseBranchMapping. -/
def parseBranchMapping (branchMapping : String) : Except ErrorKind (String × String) :=
  let parts := jsSplit branchMapping ':'
  let source := parts.getD 0 ""
  let destination := parts.getD 1 ""
  if source = "" || destination = "" then .error .invalidBranchMapping
  else .ok (source, destination)

/-! ## Branch fallback (src/src/constants.js, src/unnamed/part_000 lines 568-577) -/

/-- BRANCH_FALLBACK_ORDER from src/src/constants.js. -/
def BRANCH_FALLBACK_ORDER : List String := ["main", "master"]

/-- The loop of getTryFallbackBranch over a given fallback order: first entry
of the order present among the available branches, else none (null). -/
def getTryFallbackBranchIn (order : List String) (availableBranches : List String) :
    Option String :=
  order.find? (fun branch => availableBranches.contains branch)

/-- Embedded from getTryFallbackBranch (instantiated at BRANCH_FALLBACK_ORDER). -/
def getTryFallbackBranch (availableBranches : List String) : Option String :=
  getTryFallbackBranchIn BRANCH_FALLBACK_ORDER availableBranches

/-- Modelled from the spec: the Branch Resolver wrapper (spec section 4.2) is
not under src/ (only getTryFallbackBranch and the ERROR_MESSAGES declarations
are). An exact match wins; otherwise the fallback order is scanned; otherwise
the resolution fails with BranchNotFound carrying the full available set. -/
def resolve (requested : String) (available : List String) (fallbackOrder : List String) :
    Except ErrorKind String :=
  if available.contains requested then .ok requested
  else
    match getTryFallbackBranchIn fallbackOrder available with
    | some branch => .ok branch
    | none => .error (.branchNotFound requested available)

/-! ## Remote classification (src/src/constants.js lines 20-24) -/

/-- Detector `/gerrit/i`: the URL contains "gerrit" case-insensitively. -/
def matchesGerritWord (url : String) : Bool :=
  containsSub (String.mk (url.data.map Char.toLower)) "gerrit"

/-- Detector `/:29418/`: the URL contains the Gerrit SSH default port. -/
def matchesGerritPort (url : String) : Bool :=
  containsSub url ":29418"

/-- Detector `/\/r\//`: the URL contains the Gerrit review path pattern. -/
def matchesGerritPath (url : String) : Bool :=
  containsSub url "/r/"

/-- GERRIT_DETECTION_PATTERNS from src/src/constants.js, in source order. -/
def GERRIT_DETECTION_PATTERNS : List (String → Bool) :=
  [matchesGerritWord, matchesGerritPort, matchesGerritPath]

/-- Modelled from the spec: the classify function (spec section 4.1) is not
under src/ (only the GERRIT_DETECTION_PATTERNS declaration is). It applies the
ordered detector list, first match wins, no match yields standard. -/
def classify (url : String) : RemoteKind :=
  match GERRIT_DETECTION_PATTERNS.find? (fun p => p url) with
  | some _ => .gerrit
  | none => .standard

/-! ## Divergence analysis (spec section 4.3; DEBUG_MESSAGES in constants.js) -/

/-- Modelled from the spec: the Divergence Analyzer (spec section 4.3) is not
under src/ (only the DEBUG_MESSAGES declarations are). commonAncestor is an
external executor capability (spec section 6) passed as a function. An absent
destination is Missing; equal commits are Identical; a merge base equal to the
destination commit means FastForward; a merge base equal to the source commit
means the destination is strictly ahead (SourceAheadCleanDestination, a no-op);
anything else, including no common history, is Diverged. -/
def analyze (commonAncestor : Nat → Nat → Option Nat) (source : Nat)
    (destination : Option Nat) : DivergenceResult :=
  match destination with
  | none => .missing
  | some d =>
    if source = d then .identical
    else
      let mb := commonAncestor source d
      if mb = some d then .fastForward
      else if mb = some source then .sourceAheadCleanDestination
      else .diverged mb

/-- Commits reachable from a commit (itself included) in a parent graph,
bounded by fuel. -/
def ancestorsIn (parents : Nat → List Nat) : Nat → Nat → List Nat
  | 0, c => [c]
  | fuel + 1, c => c :: (parents c).flatMap (ancestorsIn parents fuel)

/-- Merge base in a concrete parent graph: a common ancestor from which no
other common ancestor is unreachable-above it, i.e. a maximal common ancestor
with respect to reachability. -/
def mergeBaseIn (parents : Nat → List Nat) (fuel : Nat) (a b : Nat) : Option Nat :=
  let ca := (ancestorsIn parents fuel a).filter
    (fun c => (ancestorsIn parents fuel b).contains c)
  ca.find? (fun c => ca.all (fun d => d == c || !((ancestorsIn parents fuel d).contains c)))

/-- Demo history graph: commit 0 is A, commit 1 is B with parent A, commit 2
is C with parent A. Source history A to B; one destination sits at A, another
at C. -/
def demoParents : Nat → List Nat :=
  fun c => if c = 1 then [0] else if c = 2 then [0] else []

/-- Concrete commonAncestor capability over the demo graph. -/
def demoMergeBase (a b : Nat) : Option Nat :=
  mergeBaseIn demoParents 4 a b

/-! ## Push planning (spec section 4.4) -/

/-- Modelled from the spec: the Push Planner (spec section 4.4) is not under
src/ (only the ERROR_MESSAGES declarations and the legacy unconditional
force-push callers are). The transition table: Gerrit always submits to the
review queue; a standard remote creates missing branches, no-ops on identical
or destination-ahead refs, fast-forwards when safe, and on divergence force
pushes only under an explicit allow policy, aborting with DestinationModified
otherwise. -/
def planPush (kind : RemoteKind) (destinationBranch : String)
    (result : DivergenceResult) (policy : ForcePolicy) : PushAction :=
  match kind with
  | .gerrit => .gerritSubmit ("refs/for/" ++ destinationBranch)
  | .standard =>
    match result with
    | .missing => .createNew
    | .identical => .noOp
    | .sourceAheadCleanDestination => .noOp
    | .fastForward => .fastForward
    | .diverged _ =>
      match policy with
      | .allow => .forcePush
      | .deny => .abort (.destinationModified destinationBranch)

/-! ## Tag selection and the tag push loop (src/unnamed/part_000 lines 180-201) -/

/-- Embedded from syncTags pattern mode: `allTags.all.filter((tag) =>
tag.match(syncTags))`. The regex match is an external capability, passed as a
predicate. -/
def selectMatchingTags (matchesTag : String → Bool) (allTags : List String) : List String :=
  allTags.filter matchesTag

/-- The concrete JS regex "^v1\." as a predicate: anchored at the start, it
holds exactly when the tag starts with the literal characters v1 and a dot. -/
def matchCaretV1Dot (tag : String) : Bool :=
  "v1.".data.isPrefixOf tag.data

/-- Embedded from the shell-variant tag selection of syncTags
(src/unnamed/part_000 lines 426-432): `run("git tag | grep pattern", true)`
prints the matching tags, which are then split into the tag list. When no tag
matches, grep is the last command of the pipeline and exits nonzero, execSync
throws, and run rethrows the command failure, which no caller catches, so the
whole run fails; none models that thrown error. -/
def grepTags (matchesTag : String → Bool) (allTags : List String) :
    Option (List String) :=
  let matching := allTags.filter matchesTag
  if matching = [] then none else some matching

/-- Embedded from the tag push loop of syncTags (src/unnamed/part_000 lines
193-201): each truthy tag is pushed with `await repo.push(...)`; a thrown
error propagates out of the loop immediately. Returns the list of tags for
which a push was attempted and the first error, if any. -/
def syncTagsPushLoop (push : String → Except ErrorKind Unit) :
    List String → List String × Option ErrorKind
  | [] => ([], none)
  | tag :: rest =>
    if tag = "" then syncTagsPushLoop push rest
    else
      match push tag with
      | .error e => ([tag], some e)
      | .ok _ =>
        (tag :: (syncTagsPushLoop push rest).1, (syncTagsPushLoop push rest).2)

/-! ## The all-branches push loop (src/unnamed/part_000 lines 145-153) -/

/-- Embedded from the branch loop of syncBranches: each branch name is pushed
with `await repo.push(..., --force)`; a thrown error propagates out of the
loop immediately, reaching the top-level catch which fails the run. Returns
the list of branches for which a push was attempted and the first error. -/
def syncBranchesLoop (push : String → Except ErrorKind Unit) :
    List String → List String × Option ErrorKind
  | [] => ([], none)
  | branch :: rest =>
    match push branch with
    | .error e => ([branch], some e)
    | .ok _ =>
      (branch :: (syncBranchesLoop push rest).1, (syncBranchesLoop push rest).2)

/-- A concrete push executor that fails on one designated ref and succeeds on
every other ref. -/
def failOnlyOn (bad : String) (e : ErrorKind) : String → Except ErrorKind Unit :=
  fun r => if r = bad then .error e else .ok ()

/-! ## Theorems -/

/-- C1: for every branch sync against a standard (non-Gerrit) destination
where the divergence result is Diverged and the force policy is deny, the
planned push action is Abort(DestinationModified) and is never ForcePush, for
any destination branch and any merge base value. -/
theorem c1_standard_diverged_deny_always_aborts :
    ∀ (destinationBranch : String) (mb : Option Nat),
      planPush .standard destinationBranch (.diverged mb) .deny
        = .abort (.destinationModified destinationBranch) ∧
      planPush .standard destinationBranch (.diverged mb) .deny ≠ .forcePush := by
  intro d mb
  exact ⟨rfl, by simp [planPush]⟩

theorem c1_witness :
    planPush .standard "main" (.diverged none) .deny
      = .abort (.destinationModified "main") :=
  (c1_standard_diverged_deny_always_aborts "main" none).1

/-- C2: analyze classifies the source/destination relationship by
common-ancestor computation: when the merge base equals the destination
commit (and the refs differ) it returns FastForward, and when the merge base
is neither ref (a proper ancestor of both, or none for unrelated history) it
returns Diverged; concretely, in the demo graph with source history
0 to 1 and destination at 0 analyze returns FastForward, and with
destination at 2 (not reachable from 1) it returns Diverged with merge
base 0. -/
theorem c2_analyze_merge_base_classification :
    (∀ (ca : Nat → Nat → Option Nat) (s d : Nat),
        s ≠ d → ca s d = some d → analyze ca s (some d) = .fastForward) ∧
    (∀ (ca : Nat → Nat → Option Nat) (s d : Nat),
        s ≠ d → ca s d ≠ some d → ca s d ≠ some s →
        analyze ca s (some d) = .diverged (ca s d)) ∧
    analyze demoMergeBase 1 (some 0) = .fastForward ∧
    analyze demoMergeBase 1 (some 2) = .diverged (some 0) := by
  refine ⟨?_, ?_, by decide, by decide⟩
  · intro ca s d hne h
    simp [analyze, hne, h]
  · intro ca s d hne h1 h2
    simp [analyze, hne, h1, h2]

theorem c2_witness :
    analyze (fun _ _ => some 7) 3 (some 7) = DivergenceResult.fastForward :=
  c2_analyze_merge_base_classification.1 (fun _ _ => some 7) 3 7 (by decide) rfl

/-- C4: classification is pure and total, yields Gerrit exactly when the URL
contains "gerrit" case-insensitively, or the substring ":29418", or the
substring "/r/" (first matching detector of the ordered list winning), and
Standard for every other URL; concrete instances for each detector and a
standard URL. -/
theorem c4_classify_iff_gerrit_signature :
    (∀ url : String,
      classify url =
        if matchesGerritWord url || matchesGerritPort url || matchesGerritPath url
        then .gerrit else .standard) ∧
    classify "ssh://admin@Gerrit.example.com/proj" = .gerrit ∧
    classify "ssh://host.example.com:29418/repo" = .gerrit ∧
    classify "https://host.example.com/r/project" = .gerrit ∧
    classify "https://github.com/owner/repo.git" = .standard := by
  refine ⟨?_, by decide, by decide, by decide, by decide⟩
  intro url
  cases h1 : matchesGerritWord url <;> cases h2 : matchesGerritPort url <;>
    cases h3 : matchesGerritPath url <;>
    simp [classify, GERRIT_DETECTION_PATTERNS, List.find?, h1, h2, h3]

theorem c4_witness : classify "ssh://user@gerrit.corp:29418/a" = RemoteKind.gerrit := by
  have h := c4_classify_iff_gerrit_signature.1 "ssh://user@gerrit.corp:29418/a"
  rw [h]; decide

/-- C5 counterexample: in the shell variant of the tag selector, which the
claim also covers, an empty selection is not a valid non-error outcome:
with the pattern caret v1 dot and candidates v2.0, v3.0 the match set is
empty, the grep pipeline exits nonzero, and the resulting thrown command
failure aborts the run instead of yielding the empty selection. -/
theorem c5_counterexample_empty_grep_fails :
    selectMatchingTags matchCaretV1Dot ["v2.0", "v3.0"] = [] ∧
    grepTags matchCaretV1Dot ["v2.0", "v3.0"] = none ∧
    (grepTags matchCaretV1Dot ["v2.0", "v3.0"]).isSome = false := by
  refine ⟨by decide, by decide, by decide⟩

/-- C5 amended: in pattern mode both tag-sync variants select exactly the
candidates whose name matches the pattern predicate, and with the pattern
caret v1 dot and candidates v1.0, v1.1, v2.0 the selection is v1.0, v1.1; in
the filter variant an empty selection is a valid non-error outcome of the
total selection function, but in the shell variant the selection is returned
only when non-empty, and an empty match set makes the grep pipeline fail,
which errors the run. -/
theorem c5_pattern_selection_both_variants :
    (∀ (matchesTag : String → Bool) (allTags : List String) (t : String),
        t ∈ selectMatchingTags matchesTag allTags ↔ t ∈ allTags ∧ matchesTag t = true) ∧
    selectMatchingTags matchCaretV1Dot ["v1.0", "v1.1", "v2.0"] = ["v1.0", "v1.1"] ∧
    selectMatchingTags matchCaretV1Dot ["v2.0", "v3.0"] = [] ∧
    (∀ (matchesTag : String → Bool) (allTags : List String),
        (selectMatchingTags matchesTag allTags ≠ [] →
          grepTags matchesTag allTags = some (selectMatchingTags matchesTag allTags)) ∧
        (selectMatchingTags matchesTag allTags = [] →
          grepTags matchesTag allTags = none)) := by
  refine ⟨?_, by decide, by decide, ?_⟩
  · intro m tags t
    simp [selectMatchingTags, List.mem_filter]
  · intro m tags
    constructor
    · intro h
      simp only [selectMatchingTags] at h ⊢
      simp [grepTags, h]
    · intro h
      simp only [selectMatchingTags] at h
      simp [grepTags, h]

theorem c5_witness :
    grepTags matchCaretV1Dot ["v1.0", "v2.0"]
      = some (selectMatchingTags matchCaretV1Dot ["v1.0", "v2.0"]) :=
  (c5_pattern_selection_both_variants.2.2.2 matchCaretV1Dot ["v1.0", "v2.0"]).1
    (by decide)

/-- C3: if the requested branch is in the available set, resolve returns it
unchanged regardless of the fallback order; otherwise it returns the first of
main, master present in the available set; otherwise it fails with
BranchNotFound carrying the full available set. -/
theorem c3_resolve_branch_resolution :
    (∀ (requested : String) (available fallbackOrder : List String),
        available.contains requested = true →
        resolve requested available fallbackOrder = .ok requested) ∧
    (∀ (requested : String) (available : List String),
        available.contains requested = false →
        (available.contains "main" = true →
          resolve requested available BRANCH_FALLBACK_ORDER = .ok "main") ∧
        (available.contains "main" = false → available.contains "master" = true →
          resolve requested available BRANCH_FALLBACK_ORDER = .ok "master") ∧
        (available.contains "main" = false → available.contains "master" = false →
          resolve requested available BRANCH_FALLBACK_ORDER
            = .error (.branchNotFound requested available))) := by
  constructor
  · intro req avail order h
    simp at h
    simp [resolve, h]
  · intro req avail h
    simp at h
    refine ⟨?_, ?_, ?_⟩
    · intro hm
      simp at hm
      simp [resolve, h, getTryFallbackBranchIn, BRANCH_FALLBACK_ORDER, List.find?, hm]
    · intro hm hM
      simp at hm hM
      simp [resolve, h, getTryFallbackBranchIn, BRANCH_FALLBACK_ORDER, List.find?, hm, hM]
    · intro hm hM
      simp at hm hM
      simp [resolve, h, getTryFallbackBranchIn, BRANCH_FALLBACK_ORDER, List.find?, hm, hM]

theorem c3_witness :
    resolve "feature" ["dev", "master"] BRANCH_FALLBACK_ORDER = .ok "master" :=
  ((c3_resolve_branch_resolution.2 "feature" ["dev", "master"] (by decide)).2.1
    (by decide) (by decide))

/-- C6 counterexample: with two selected non-empty tags a and b and a push
executor failing on a, the tag push loop attempts only a — the remaining tag
b is never attempted, so a single tag push failure does prevent the rest of
the selected set from being attempted. -/
theorem c6_counterexample_tag_failure_stops_loop :
    "b" ∈ ["a", "b"] ∧ ("b" : String) ≠ "" ∧
    (syncTagsPushLoop (failOnlyOn "a" (.tagPushFailed "a")) ["a", "b"]).1 = ["a"] ∧
    "b" ∉ (syncTagsPushLoop (failOnlyOn "a" (.tagPushFailed "a")) ["a", "b"]).1 ∧
    (syncTagsPushLoop (failOnlyOn "a" (.tagPushFailed "a")) ["a", "b"]).2
      = some (.tagPushFailed "a") := by
  refine ⟨by decide, by decide, by decide, by decide, by decide⟩

/-- C6 amended: each selected non-empty tag is pushed individually in order,
but the loop stops at the first failing push: when every push succeeds all
non-empty tags are attempted with no error, and when the pushes before some
non-empty tag succeed and that tag's push fails, exactly the non-empty tags
before it plus the failing tag are attempted and the failure is returned. -/
theorem c6_tags_pushed_individually_until_first_failure :
    (∀ (push : String → Except ErrorKind Unit) (tags : List String),
        (∀ t ∈ tags, t ≠ "" → push t = .ok ()) →
        syncTagsPushLoop push tags = (tags.filter (fun t => !(t == "")), none)) ∧
    (∀ (push : String → Except ErrorKind Unit) (pre : List String) (tag : String)
        (rest : List String) (e : ErrorKind),
        (∀ t ∈ pre, t ≠ "" → push t = .ok ()) → tag ≠ "" → push tag = .error e →
        syncTagsPushLoop push (pre ++ tag :: rest)
          = (pre.filter (fun t => !(t == "")) ++ [tag], some e)) := by
  constructor
  · intro push tags h
    induction tags with
    | nil => rfl
    | cons t rest ih =>
      have hr := ih (fun u hu hne => h u (List.mem_cons_of_mem _ hu) hne)
      by_cases ht : t = ""
      · subst ht
        simpa [syncTagsPushLoop] using hr
      · have hp := h t (List.mem_cons_self _ _) ht
        simp [syncTagsPushLoop, ht, hp, hr]
  · intro push pre tag rest e hpre htag herr
    induction pre with
    | nil => simp [syncTagsPushLoop, htag, herr]
    | cons p ps ih =>
      have hr := ih (fun u hu hne => hpre u (List.mem_cons_of_mem _ hu) hne)
      by_cases hp : p = ""
      · subst hp
        simpa [syncTagsPushLoop] using hr
      · have hok := hpre p (List.mem_cons_self _ _) hp
        simp [syncTagsPushLoop, hp, hok, hr]

theorem c6_witness :
    syncTagsPushLoop (failOnlyOn "c" (.tagPushFailed "c")) ["a", "c", "b"]
      = (["a", "c"], some (.tagPushFailed "c")) := by
  have h := c6_tags_pushed_individually_until_first_failure.2
    (failOnlyOn "c" (.tagPushFailed "c")) ["a"] "c" ["b"] (.tagPushFailed "c")
    (by intro t ht hne; fin_cases ht <;> rfl) (by decide) rfl
  simpa using h

/-- C7 counterexample: in all-branches mode with branches b1 and b2 and a push
executor failing on b1, the branch loop attempts only b1 — b2 is never
processed and no per-branch failure collection happens, so one branch's abort
does halt processing of subsequent branches. -/
theorem c7_counterexample_branch_abort_halts_run :
    "b2" ∈ ["b1", "b2"] ∧
    (syncBranchesLoop (failOnlyOn "b1" .remoteUnreachable) ["b1", "b2"]).1 = ["b1"] ∧
    "b2" ∉ (syncBranchesLoop (failOnlyOn "b1" .remoteUnreachable) ["b1", "b2"]).1 ∧
    (syncBranchesLoop (failOnlyOn "b1" .remoteUnreachable) ["b1", "b2"]).2
      = some .remoteUnreachable := by
  refine ⟨by decide, by decide, by decide, by decide⟩

/-- C7 amended: branches are processed sequentially and the first failing
push halts the loop: when every push succeeds, all branches are synced and
the run succeeds; when the pushes before some branch succeed and that
branch's push fails, exactly the earlier branches plus the failing branch are
attempted, subsequent branches are skipped, and the error propagates, failing
the run. -/
theorem c7_branches_sequential_halt_on_first_failure :
    (∀ (push : String → Except ErrorKind Unit) (branches : List String),
        (∀ b ∈ branches, push b = .ok ()) →
        syncBranchesLoop push branches = (branches, none)) ∧
    (∀ (push : String → Except ErrorKind Unit) (pre : List String) (b : String)
        (rest : List String) (e : ErrorKind),
        (∀ x ∈ pre, push x = .ok ()) → push b = .error e →
        syncBranchesLoop push (pre ++ b :: rest) = (pre ++ [b], some e)) := by
  constructor
  · intro push branches h
    induction branches with
    | nil => rfl
    | cons x rest ih =>
      have hr := ih (fun u hu => h u (List.mem_cons_of_mem _ hu))
      have hx := h x (List.mem_cons_self _ _)
      simp [syncBranchesLoop, hx, hr]
  · intro push pre b rest e hpre herr
    induction pre with
    | nil => simp [syncBranchesLoop, herr]
    | cons p ps ih =>
      have hr := ih (fun u hu => hpre u (List.mem_cons_of_mem _ hu))
      have hok := hpre p (List.mem_cons_self _ _)
      simp [syncBranchesLoop, hok, hr]

theorem c7_witness :
    syncBranchesLoop (failOnlyOn "dev" .remoteUnreachable) ["main", "dev", "qa"]
      = (["main", "dev"], some .remoteUnreachable) := by
  have h := c7_branches_sequential_halt_on_first_failure.2
    (failOnlyOn "dev" .remoteUnreachable) ["main"] "dev" ["qa"] .remoteUnreachable
    (by intro x hx; fin_cases hx <;> rfl) rfl
  simpa using h

/-- C8: parsing the source:destination syntax fails, always with
InvalidBranchMapping, exactly when the first or second colon-separated
component is empty or absent, and on success both returned fields are
non-empty. -/
theorem c8_parse_branch_mapping_correct :
    ∀ s : String,
      (parseBranchMapping s = .error .invalidBranchMapping ↔
        ((jsSplit s ':').getD 0 "" = "" ∨ (jsSplit s ':').getD 1 "" = "")) ∧
      (∀ e, parseBranchMapping s = .error e → e = .invalidBranchMapping) ∧
      (∀ a b, parseBranchMapping s = .ok (a, b) → a ≠ "" ∧ b ≠ "") := by
  intro s
  refine ⟨?_, ?_, ?_⟩
  · by_cases h0 : (jsSplit s ':').getD 0 "" = "" <;>
      by_cases h1 : (jsSplit s ':').getD 1 "" = "" <;>
      simp only [List.getD_eq_getElem?_getD] at h0 h1 <;>
      simp [parseBranchMapping, h0, h1]
  · intro e he
    by_cases h0 : (jsSplit s ':').getD 0 "" = "" <;>
      by_cases h1 : (jsSplit s ':').getD 1 "" = "" <;>
      simp only [List.getD_eq_getElem?_getD] at h0 h1 <;>
      simp [parseBranchMapping, h0, h1] at he <;>
      simp [he]
  · intro a b hab
    by_cases h0 : (jsSplit s ':').getD 0 "" = "" <;>
      by_cases h1 : (jsSplit s ':').getD 1 "" = "" <;>
      simp only [List.getD_eq_getElem?_getD] at h0 h1 <;>
      simp [parseBranchMapping, h0, h1] at hab
    obtain ⟨ha, hb⟩ := hab
    subst ha
    subst hb
    exact ⟨h0, h1⟩

theorem c8_witness : ("a" : String) ≠ "" ∧ ("b" : String) ≠ "" :=
  (c8_parse_branch_mapping_correct "a:b").2.2 "a" "b" rfl

/-- The wrapped GitHub slug always passes the git-URI test, since it contains
a colon. -/
theorem wrappedSlugIsGitUri (u : String) :
    isGitUri ("https://github.com/" ++ u ++ ".git") = true := by
  have hmem : ':' ∈ ("https://github.com/" ++ u ++ ".git").data := by
    rw [String.data_append, String.data_append]
    exact List.mem_append_left _ (List.mem_append_left _ (by decide))
  have hc : containsChar ("https://github.com/" ++ u ++ ".git") ':' = true := by
    unfold containsChar
    exact List.elem_eq_true_of_mem hmem
  simp [isGitUri, hc]

/-- C9: normalizeRepositoryUrl is idempotent; inputs passing the git-URI test
(containing a colon or an at sign, or ending in ".git" optionally followed by
a slash) are returned unchanged, and every other input is wrapped into an
HTTPS GitHub URL, which is itself a fixed point. -/
theorem c9_normalize_repository_url_idempotent :
    ∀ u : String,
      normalizeRepositoryUrl (normalizeRepositoryUrl u) = normalizeRepositoryUrl u ∧
      (isGitUri u = true → normalizeRepositoryUrl u = u) ∧
      (isGitUri u = false →
        normalizeRepositoryUrl u = "https://github.com/" ++ u ++ ".git" ∧
        normalizeRepositoryUrl ("https://github.com/" ++ u ++ ".git")
          = "https://github.com/" ++ u ++ ".git") := by
  have hfix : ∀ v : String, isGitUri v = true → normalizeRepositoryUrl v = v := by
    intro v hv
    simp [normalizeRepositoryUrl, hv]
  intro u
  cases h : isGitUri u with
  | true =>
    have h1 := hfix u h
    exact ⟨by rw [h1, h1], fun _ => h1, fun hf => Bool.noConfusion hf⟩
  | false =>
    have h1 : normalizeRepositoryUrl u = "https://github.com/" ++ u ++ ".git" := by
      simp [normalizeRepositoryUrl, h]
    have h2 := hfix _ (wrappedSlugIsGitUri u)
    exact ⟨by rw [h1, h2], fun ht => Bool.noConfusion ht, fun _ => ⟨h1, h2⟩⟩

theorem c9_witness :
    normalizeRepositoryUrl "owner/repo" = "https://github.com/" ++ "owner/repo" ++ ".git" ∧
    normalizeRepositoryUrl "git@github.com:owner/repo.git"
      = "git@github.com:owner/repo.git" :=
  ⟨((c9_normalize_repository_url_idempotent "owner/repo").2.2 (by decide)).1,
   (c9_normalize_repository_url_idempotent "git@github.com:owner/repo.git").2.1 (by decide)⟩

/-- C10: a mapping string splitting into three or more components whose first
two components are non-empty does not raise an error: the first component
becomes the source, the second the destination, and everything after the
second component is silently discarded; concretely "a:b:c" parses to (a, b). -/
theorem c10_extra_colon_components_discarded :
    (∀ s : String,
        3 ≤ (jsSplit s ':').length →
        (jsSplit s ':').getD 0 "" ≠ "" →
        (jsSplit s ':').getD 1 "" ≠ "" →
        parseBranchMapping s
          = .ok ((jsSplit s ':').getD 0 "", (jsSplit s ':').getD 1 "")) ∧
    jsSplit "a:b:c" ':' = ["a", "b", "c"] ∧
    parseBranchMapping "a:b:c" = .ok ("a", "b") := by
  refine ⟨?_, by decide, rfl⟩
  intro s _ h0 h1
  simp only [List.getD_eq_getElem?_getD] at h0 h1
  simp [parseBranchMapping, h0, h1]

theorem c10_witness :
    parseBranchMapping "a:b:c"
      = .ok ((jsSplit "a:b:c" ':').getD 0 "", (jsSplit "a:b:c" ':').getD 1 "") :=
  c10_extra_colon_components_discarded.1 "a:b:c" (by decide) (by decide) (by decide)

end RepoSync
